import Mathlib

/-!
# Verification of the PRofessor GitHub reviewer core

Shallow embedding, in Lean, of the provider capability / request-ledger
engine and the webhook signature gate of the repository, together with
proofs (and refutations) of the specified properties.

Conventions of the embedding:
* TypeScript strings carried as raw bytes (HTTP bodies, HMAC inputs) are
  `List Nat` with every element a byte value; strings manipulated
  character-wise (markdown fence stripping, JSON) are `List Char`.
* JavaScript numbers used for money/latency averages are idealised as `Rat`
  (the source performs only +, *, / on them).
* `Date` timestamps are `Int` (milliseconds since epoch); only their order
  is ever used.
* Fallible external calls (vendor SDK, GitHub fetches) appear as explicit
  outcome values (`Except`, outcome inductives) handed to the embedded
  function, so a thrown exception is an ordinary constructor.
-/

namespace PRofessor

/-! ## SHA-256 (FIPS 180-4) over byte lists, as used by node crypto -/

/-- Truncation to a 32-bit word. -/
def w32 (n : Nat) : Nat := n % 4294967296

/-- Right rotation of a 32-bit word by `k` bits. -/
def rotr32 (k x : Nat) : Nat := w32 ((x >>> k) ||| (x <<< (32 - k)))

/-- Bitwise complement of a 32-bit word. -/
def compl32 (x : Nat) : Nat := Nat.xor x 4294967295

/-- SHA-256 `Ch` function. -/
def sha2Ch (x y z : Nat) : Nat := Nat.xor (Nat.land x y) (Nat.land (compl32 x) z)

/-- SHA-256 `Maj` function. -/
def sha2Maj (x y z : Nat) : Nat :=
  Nat.xor (Nat.xor (Nat.land x y) (Nat.land x z)) (Nat.land y z)

/-- SHA-256 `Σ₀`. -/
def bsig0 (x : Nat) : Nat := Nat.xor (Nat.xor (rotr32 2 x) (rotr32 13 x)) (rotr32 22 x)

/-- SHA-256 `Σ₁`. -/
def bsig1 (x : Nat) : Nat := Nat.xor (Nat.xor (rotr32 6 x) (rotr32 11 x)) (rotr32 25 x)

/-- SHA-256 `σ₀`. -/
def ssig0 (x : Nat) : Nat := Nat.xor (Nat.xor (rotr32 7 x) (rotr32 18 x)) (x >>> 3)

/-- SHA-256 `σ₁`. -/
def ssig1 (x : Nat) : Nat := Nat.xor (Nat.xor (rotr32 17 x) (rotr32 19 x)) (x >>> 10)

/-- The 64 SHA-256 round constants (FIPS 180-4 §4.2.2), in decimal. -/
def K256 : List Nat :=
  [1116352408, 1899447441, 3049323471, 3921009573, 961987163, 1508970993,
   2453635748, 2870763221, 3624381080, 310598401, 607225278, 1426881987,
   1925078388, 2162078206, 2614888103, 3248222580, 3835390401, 4022224774,
   264347078, 604807628, 770255983, 1249150122, 1555081692, 1996064986,
   2554220882, 2821834349, 2952996808, 3210313671, 3336571891, 3584528711,
   113926993, 338241895, 666307205, 773529912, 1294757372, 1396182291,
   1695183700, 1986661051, 2177026350, 2456956037, 2730485921, 2820302411,
   3259730800, 3345764771, 3516065817, 3600352804, 4094571909, 275423344,
   430227734, 506948616, 659060556, 883997877, 958139571, 1322822218,
   1537002063, 1747873779, 1955562222, 2024104815, 2227730452, 2361852424,
   2428436474, 2756734187, 3204031479, 3329325298]

/-- The eight SHA-256 initial hash values (FIPS 180-4 §5.3.3), in
decimal. -/
def H256 : List Nat :=
  [1779033703, 3144134277, 1013904242, 2773480762, 1359893119, 2600822924, 528734635, 1541459225]

/-- Big-endian 8-byte encoding of a (64-bit) natural number. -/
def be64 (n : Nat) : List Nat :=
  [(n >>> 56) % 256, (n >>> 48) % 256, (n >>> 40) % 256, (n >>> 32) % 256,
   (n >>> 24) % 256, (n >>> 16) % 256, (n >>> 8) % 256, n % 256]

/-- Big-endian 4-byte encoding of a 32-bit word. -/
def be32 (n : Nat) : List Nat :=
  [(n >>> 24) % 256, (n >>> 16) % 256, (n >>> 8) % 256, n % 256]

/-- SHA-256 padding: append `0x80`, zeros, and the 64-bit big-endian bit
length, reaching a multiple of 64 bytes. -/
def sha256Pad (msg : List Nat) : List Nat :=
  let L := msg.length
  msg ++ [0x80] ++ List.replicate ((64 - ((L + 9) % 64)) % 64) 0 ++ be64 (8 * L)

/-- Split a byte list into 64-byte blocks (fuel-driven so that the kernel can
evaluate it; the fuel is an upper bound on the number of blocks). -/
def toBlocksAux : Nat → List Nat → List (List Nat)
  | _, [] => []
  | 0, l => [l]
  | fuel + 1, l => l.take 64 :: toBlocksAux fuel (l.drop 64)

/-- Split a byte list into 64-byte blocks. -/
def toBlocks (l : List Nat) : List (List Nat) := toBlocksAux l.length l

/-- Group bytes into big-endian 32-bit words. -/
def toWordsAux : Nat → List Nat → List Nat
  | _, [] => []
  | 0, _ => []
  | fuel + 1, l => (l.take 4).foldl (fun a b => a * 256 + b) 0 :: toWordsAux fuel (l.drop 4)

/-- Group bytes into big-endian 32-bit words. -/
def toWords (l : List Nat) : List Nat := toWordsAux l.length l

/-- Extend the 16 message-schedule words to 64 (the accumulator is kept
reversed so that the recently produced words sit at the head). -/
def extendW (ws : List Nat) : List Nat :=
  ((List.range 48).foldl
    (fun acc _ =>
      w32 (ssig1 (acc.getD 1 0) + acc.getD 6 0 + ssig0 (acc.getD 14 0) + acc.getD 15 0) :: acc)
    ws.reverse).reverse

/-- One SHA-256 round on the eight-word working state. -/
def sha2Round (st : Nat × Nat × Nat × Nat × Nat × Nat × Nat × Nat) (kw : Nat × Nat) :
    Nat × Nat × Nat × Nat × Nat × Nat × Nat × Nat :=
  match st with
  | (a, b, c, d, e, f, g, h) =>
    let t1 := w32 (h + bsig1 e + sha2Ch e f g + kw.1 + kw.2)
    let t2 := w32 (bsig0 a + sha2Maj a b c)
    (w32 (t1 + t2), a, b, c, w32 (d + t1), e, f, g)

/-- Compress one 64-byte block into the running eight-word hash state. -/
def sha256Block (H : List Nat) (block : List Nat) : List Nat :=
  let w := extendW (toWords block)
  let fin := (K256.zip w).foldl sha2Round
    (H.getD 0 0, H.getD 1 0, H.getD 2 0, H.getD 3 0,
     H.getD 4 0, H.getD 5 0, H.getD 6 0, H.getD 7 0)
  match fin with
  | (a, b, c, d, e, f, g, h) =>
    [w32 (H.getD 0 0 + a), w32 (H.getD 1 0 + b), w32 (H.getD 2 0 + c), w32 (H.getD 3 0 + d),
     w32 (H.getD 4 0 + e), w32 (H.getD 5 0 + f), w32 (H.getD 6 0 + g), w32 (H.getD 7 0 + h)]

/-- SHA-256 of a byte list, as a 32-byte list. -/
def sha256 (msg : List Nat) : List Nat :=
  ((toBlocks (sha256Pad msg)).foldl sha256Block H256).foldr (fun h acc => be32 h ++ acc) []

/-- HMAC-SHA-256 (FIPS 198-1) of `msg` under `key`, as node crypto computes
for `createHmac('sha256', secret)`. -/
def hmacSha256 (key msg : List Nat) : List Nat :=
  let k1 := if 64 < key.length then sha256 key else key
  let k0 := k1 ++ List.replicate (64 - k1.length) 0
  sha256 (k0.map (Nat.xor 0x5c) ++ sha256 (k0.map (Nat.xor 0x36) ++ msg))

/-! ## Webhook signature verification (`src/services/webhook.ts`) -/

/-- Lowercase hexadecimal digit, as an ASCII code, of a value (the branch
taken by node's hex encoder for each nibble). -/
def hexDigit (d : Nat) : Nat := if d < 10 then 48 + d else 87 + d

/-- Lowercase hex encoding (ASCII byte list) of a byte list, as
`hmac.digest('hex')` produces. -/
def hexOfBytes (l : List Nat) : List Nat :=
  l.foldr (fun b acc => hexDigit (b / 16) :: hexDigit (b % 16) :: acc) []

/-- ASCII bytes of the string `sha256=`. -/
def sha256HeaderTag : List Nat := [115, 104, 97, 50, 53, 54, 61]

/-- The digest string `'sha256=' + hmac.update(rawBody).digest('hex')`
computed inside `WebhookService.verifySignature`, as UTF-8 bytes. -/
def expectedSignature (secret body : List Nat) : List Nat :=
  sha256HeaderTag ++ hexOfBytes (hmacSha256 secret body)

/-- Functional model of node `crypto.timingSafeEqual` on equal-length
buffers: true exactly when the buffers hold the same bytes (the
constant-time execution itself is a timing property with no functional
content). -/
def timingSafeEqual (a b : List Nat) : Bool := a == b

/-- Embedding of `WebhookService.verifySignature` (webhook.ts lines
90-119). The header value and the raw body reach the comparison as byte
buffers; a missing header or missing raw body short-circuits to `false`,
a length mismatch returns `false` before the constant-time comparison,
and the function is total, so the `catch` branch that maps any comparison
exception to `false` has no residue beyond totality. -/
def verifySignature (signatureHeader : Option (List Nat)) (rawBody : Option (List Nat))
    (secret : List Nat) : Bool :=
  match signatureHeader, rawBody with
  | some signature, some body =>
      let digest := sha256HeaderTag ++ hexOfBytes (hmacSha256 secret body)
      if signature.length ≠ digest.length then false
      else timingSafeEqual signature digest
  | _, _ => false

/-! ## Provider capability data model (`src/types/index.ts`)

`Record<string, unknown>` request options are modelled by the fields the
program actually reads from them: `model` (analytics and pricing lookup),
`max_tokens` and `temperature` (merge with instance defaults). The opaque
`response`/`rawResponse` payloads, unused by every property below, are
omitted. Monetary amounts and temperatures are `Rat`. -/

/-- One pricing-table entry (`ModelConfig.pricing[model]`). -/
structure PricingEntry where
  inputCostPer1kTokens : Rat
  outputCostPer1kTokens : Rat
deriving DecidableEq

/-- The request options observed on a `CallRecord` / passed by a caller
(`model`, `max_tokens`, `temperature`; a `none` field is an absent key). -/
structure OptionsRecord where
  model : Option String
  maxTokens : Option Nat
  temperature : Option Rat
deriving DecidableEq

/-- Instance configuration (`ModelConfig`): the source reads
`config.model!`, `config.maxTokens!`, `config.temperature!` with non-null
assertions, so these are total here; `pricing` is an association list
(`none` entry lookup = key absent). -/
structure ModelConfig where
  model : String
  maxTokens : Nat
  temperature : Rat
  pricing : List (String × PricingEntry)
deriving DecidableEq

/-- Lookup in the pricing table (`config.pricing[model]`). -/
def priceFor (pricing : List (String × PricingEntry)) (model : String) : Option PricingEntry :=
  (pricing.find? (fun p => p.1 == model)).map (fun p => p.2)

/-- One ledger entry (`ApiRequest` in `src/types/index.ts`). -/
structure ApiRequest where
  timestamp : Int
  prompt : String
  options : OptionsRecord
  success : Bool
  latency : Nat
  error : Option String
  inputTokens : Option Nat
  outputTokens : Option Nat
  totalTokens : Option Nat
  cost : Option Rat
deriving DecidableEq

/-- The value returned by `generateResponse` (`ApiResponse`). -/
structure ApiResponse where
  content : String
  success : Bool
  error : Option String
deriving DecidableEq

/-! ## ChatGPT variant (`src/services/models/chatgpt.ts`) -/

/-- The `message` object of an OpenAI chat-completion choice (`content`
can be absent/null). -/
structure ChatMessage where
  content : Option String
deriving DecidableEq

/-- One element of `response.choices` (`message` can be absent). -/
structure ChatChoice where
  message : Option ChatMessage
deriving DecidableEq

/-- The `usage` object on an OpenAI chat completion. -/
structure ChatUsage where
  prompt_tokens : Nat
  completion_tokens : Nat
deriving DecidableEq

/-- Outcome of `this.client.chat.completions.create(mergedOptions)`: the
promise either rejects (`threw`) or resolves to a response envelope with
a `choices` array and an optional `usage` object. -/
inductive ChatCompletionOutcome where
  | threw (msg : String)
  | ok (choices : List ChatChoice) (usage : Option ChatUsage)
deriving DecidableEq

/-- The merge `{...defaultOptions, ...options}` of chatgpt.ts lines 30-37:
a caller-supplied key overrides the instance default (`messages`, which the
claims never touch, is omitted). -/
def mergeChatGPTOptions (cfg : ModelConfig) (o : OptionsRecord) : OptionsRecord :=
  { model := some (o.model.getD cfg.model)
    maxTokens := some (o.maxTokens.getD cfg.maxTokens)
    temperature := some (o.temperature.getD cfg.temperature) }

/-- The failed `CallRecord` built in the catch branch (chatgpt.ts lines
106-113 and gemini.ts lines 110-117): raw caller options, no token data. -/
def failedRecord (requestTime : Int) (prompt : String) (rawOptions : OptionsRecord)
    (errorMsg : String) (latency : Nat) : ApiRequest :=
  { timestamp := requestTime, prompt := prompt, options := rawOptions, success := false
    latency := latency, error := some errorMsg, inputTokens := none, outputTokens := none
    totalTokens := none, cost := none }

/-- The success `CallRecord` of chatgpt.ts lines 50-77: merged options;
token counts and cost filled in when the response carries a `usage` object
and the pricing table knows the merged model. -/
def chatgptSuccessRecord (cfg : ModelConfig) (requestTime : Int) (prompt : String)
    (o : OptionsRecord) (usage : Option ChatUsage) (latency : Nat) : ApiRequest :=
  let mergedOptions := mergeChatGPTOptions cfg o
  let base : ApiRequest :=
    { timestamp := requestTime, prompt := prompt, options := mergedOptions, success := true
      latency := latency, error := none, inputTokens := none, outputTokens := none
      totalTokens := none, cost := none }
  match usage with
  | none => base
  | some u =>
    let withTokens :=
      { base with inputTokens := some u.prompt_tokens, outputTokens := some u.completion_tokens
                  totalTokens := some (u.prompt_tokens + u.completion_tokens) }
    match priceFor cfg.pricing (mergedOptions.model.getD "") with
    | none => withTokens
    | some pricing =>
      { withTokens with cost := some ((u.prompt_tokens / 1000 : Rat) * pricing.inputCostPer1kTokens
          + (u.completion_tokens / 1000 : Rat) * pricing.outputCostPer1kTokens) }

/-- Text extraction from an OpenAI chat completion (chatgpt.ts lines
84-98): first choice's `message.content`, required truthy (present and
non-empty); `none` means the source throws `Unexpected response format
from ChatGPT API` into its own catch. -/
def chatgptExtractText (choices : List ChatChoice) : Option String :=
  match choices with
  | [] => none
  | choice :: _ =>
    match choice.message with
    | none => none
    | some m =>
      match m.content with
      | none => none
      | some c => if c = "" then none else some c

/-- The error message thrown on a malformed ChatGPT response shape. -/
def chatgptShapeError : String := "Unexpected response format from ChatGPT API"

/-- Embedding of `ChatGPTService.generateResponse` (chatgpt.ts lines
23-123). Inputs beyond the source arguments: the current ledger, the
transport outcome, and the two clock readings (request instant and
elapsed latency). Returns the new ledger and the `ApiResponse`; the
source's try/catch is the case split (a rejected promise and a malformed
shape both land in the catch branch, which appends a failed record with
the raw caller options and returns a failed response). Total, hence the
method never itself throws. -/
def chatgptGenerateResponse (cfg : ModelConfig) (ledger : List ApiRequest) (prompt : String)
    (options : OptionsRecord) (outcome : ChatCompletionOutcome) (requestTime : Int)
    (latency : Nat) : List ApiRequest × ApiResponse :=
  match outcome with
  | .threw e =>
    (ledger ++ [failedRecord requestTime prompt options e latency],
     { content := "", success := false, error := some e })
  | .ok choices usage =>
    let ledger1 := ledger ++ [chatgptSuccessRecord cfg requestTime prompt options usage latency]
    match chatgptExtractText choices with
    | some c => (ledger1, { content := c, success := true, error := none })
    | none =>
      (ledger1 ++ [failedRecord requestTime prompt options chatgptShapeError latency],
       { content := "", success := false, error := some chatgptShapeError })

/-! ## Gemini variant (`src/services/models/gemini.ts`) -/

instance {ε α : Type} [DecidableEq ε] [DecidableEq α] : DecidableEq (Except ε α) := fun a b =>
  match a, b with
  | .ok x, .ok y =>
    if h : x = y then .isTrue (by rw [h]) else .isFalse (fun he => h (Except.ok.inj he))
  | .error x, .error y =>
    if h : x = y then .isTrue (by rw [h]) else .isFalse (fun he => h (Except.error.inj he))
  | .ok _, .error _ => .isFalse (fun he => Except.noConfusion he)
  | .error _, .ok _ => .isFalse (fun he => Except.noConfusion he)

/-- The `usageMetadata` object of a Gemini response (each count can be
absent, defaulted with `|| 0` in the source). -/
structure GeminiUsageMetadata where
  promptTokenCount : Option Nat
  candidatesTokenCount : Option Nat
deriving DecidableEq

/-- The `response.response` object of a Gemini result: optional
`usageMetadata`, and a `text()` accessor that can itself throw
(`Except.error` is a throw from `text()`). -/
structure GeminiResponseObj where
  usageMetadata : Option GeminiUsageMetadata
  text : Except String String
deriving DecidableEq

/-- Outcome of `model.generateContent(...)`. -/
inductive GeminiOutcome where
  | threw (msg : String)
  | ok (resp : GeminiResponseObj)
deriving DecidableEq

/-- Caller options of `GeminiService.generateResponse`
(`Partial<GenerateContentRequest>`): an optional `contents` array (the
only key the source reads) and an optional `generationConfig` carrying a
caller token limit / temperature (present in the SDK type, never read by
the source). Contents are modelled by their text parts. -/
structure GeminiOptions where
  contents : Option (List String)
  generationConfig : Option (Option Nat × Option Rat)
deriving DecidableEq

/-- The raw caller options as stored on a failed Gemini record
(`options as Record<string, unknown>`): the object has no top-level
`model`/`max_tokens`/`temperature` keys, so every observed field is
absent. -/
def geminiRawOptionsRecord (_o : GeminiOptions) : OptionsRecord :=
  { model := none, maxTokens := none, temperature := none }

/-- The `mergedOptions` object built for tracking on the Gemini success
path (gemini.ts lines 61-65): `{model: modelName, ...generationConfig,
...contentOptions}` where every component comes from the instance config,
never from the caller options. -/
def geminiMergedOptionsRecord (cfg : ModelConfig) : OptionsRecord :=
  { model := some cfg.model, maxTokens := some cfg.maxTokens, temperature := some cfg.temperature }

/-- The request actually issued to the Gemini SDK (gemini.ts lines 32-55):
model name and generation config from the instance config alone; only
`contents` can be overridden by the caller. -/
structure GeminiIssuedRequest where
  model : String
  maxOutputTokens : Nat
  temperature : Rat
  contents : List String
deriving DecidableEq

/-- The parameters of the `getGenerativeModel`/`generateContent` pair as a
function of config, prompt and caller options (gemini.ts lines 32-55). -/
def geminiIssuedRequest (cfg : ModelConfig) (prompt : String) (options : GeminiOptions) :
    GeminiIssuedRequest :=
  { model := cfg.model, maxOutputTokens := cfg.maxTokens, temperature := cfg.temperature
    contents := options.contents.getD [prompt] }

/-- The success `CallRecord` of gemini.ts lines 68-93: merged options from
config; token counts (with `|| 0` defaults) and cost filled in when
`usageMetadata` is present and the pricing table knows the config model. -/
def geminiSuccessRecord (cfg : ModelConfig) (requestTime : Int) (prompt : String)
    (usageMetadata : Option GeminiUsageMetadata) (latency : Nat) : ApiRequest :=
  let base : ApiRequest :=
    { timestamp := requestTime, prompt := prompt, options := geminiMergedOptionsRecord cfg
      success := true, latency := latency, error := none, inputTokens := none
      outputTokens := none, totalTokens := none, cost := none }
  match usageMetadata with
  | none => base
  | some um =>
    let inTok := um.promptTokenCount.getD 0
    let outTok := um.candidatesTokenCount.getD 0
    let withTokens :=
      { base with inputTokens := some inTok, outputTokens := some outTok
                  totalTokens := some (inTok + outTok) }
    match priceFor cfg.pricing cfg.model with
    | none => withTokens
    | some pricing =>
      { withTokens with cost := some ((inTok / 1000 : Rat) * pricing.inputCostPer1kTokens
          + (outTok / 1000 : Rat) * pricing.outputCostPer1kTokens) }

/-- Embedding of `GeminiService.generateResponse` (gemini.ts lines
25-127). A rejected `generateContent` promise and a throwing `text()`
accessor both land in the catch branch (the latter after the success
record was already pushed). Total, hence the method never itself
throws. -/
def geminiGenerateResponse (cfg : ModelConfig) (ledger : List ApiRequest) (prompt : String)
    (options : GeminiOptions) (outcome : GeminiOutcome) (requestTime : Int) (latency : Nat) :
    List ApiRequest × ApiResponse :=
  match outcome with
  | .threw e =>
    (ledger ++ [failedRecord requestTime prompt (geminiRawOptionsRecord options) e latency],
     { content := "", success := false, error := some e })
  | .ok resp =>
    let ledger1 := ledger ++ [geminiSuccessRecord cfg requestTime prompt resp.usageMetadata latency]
    match resp.text with
    | .ok t => (ledger1, { content := t, success := true, error := none })
    | .error e =>
      (ledger1 ++ [failedRecord requestTime prompt (geminiRawOptionsRecord options) e latency],
       { content := "", success := false, error := some e })

/-! ## Request ledger and analytics (`ProviderService`, src/unnamed/part_005) -/

/-- Model name read from a record's options:
`(request.options.model as string) || 'unknown'` — an absent key and the
empty string (both falsy) yield the sentinel. -/
def modelNameOf (r : ApiRequest) : String :=
  match r.options.model with
  | none => "unknown"
  | some m => if m = "" then "unknown" else m

/-- The two sequential optional date filters of `getUsageAnalytics`
(part_005 lines 359-366): `r.timestamp >= startDate`, then
`r.timestamp <= endDate`. -/
def filterByDateRange (requests : List ApiRequest) (startDate endDate : Option Int) :
    List ApiRequest :=
  let f1 := match startDate with
    | some s => requests.filter (fun r => s ≤ r.timestamp)
    | none => requests
  match endDate with
  | some e => f1.filter (fun r => r.timestamp ≤ e)
  | none => f1

/-- One step of building the `requestsByModel` record:
`requestsByModel[model] = (requestsByModel[model] || 0) + 1`, modelled on
an insertion-ordered association list with unique keys. -/
def bumpModel : List (String × Nat) → String → List (String × Nat)
  | [], m => [(m, 1)]
  | (k, n) :: rest, m =>
    if k = m then (k, n + 1) :: rest else (k, n) :: bumpModel rest m

/-- The value returned by `getUsageAnalytics`. -/
structure UsageAnalytics where
  totalRequests : Nat
  successfulRequests : Nat
  failedRequests : Nat
  totalTokens : Nat
  inputTokens : Nat
  outputTokens : Nat
  totalCost : Rat
  averageLatency : Rat
  requestsByModel : List (String × Nat)
deriving DecidableEq

/-- Embedding of `ProviderService.getUsageAnalytics` (part_005 lines
345-395). -/
def getUsageAnalytics (requests : List ApiRequest) (startDate endDate : Option Int) :
    UsageAnalytics :=
  let filteredRequests := filterByDateRange requests startDate endDate
  let requestsByModel := filteredRequests.foldl (fun acc r => bumpModel acc (modelNameOf r)) []
  let successfulRequests := filteredRequests.filter (fun r => r.success)
  let totalLatency := (filteredRequests.map (fun r => r.latency)).sum
  { totalRequests := filteredRequests.length
    successfulRequests := successfulRequests.length
    failedRequests := filteredRequests.length - successfulRequests.length
    totalTokens := (filteredRequests.map (fun r => r.totalTokens.getD 0)).sum
    inputTokens := (filteredRequests.map (fun r => r.inputTokens.getD 0)).sum
    outputTokens := (filteredRequests.map (fun r => r.outputTokens.getD 0)).sum
    totalCost := (filteredRequests.map (fun r => r.cost.getD 0)).sum
    averageLatency :=
      if 0 < filteredRequests.length then (totalLatency : Rat) / (filteredRequests.length : Rat)
      else 0
    requestsByModel := requestsByModel }

/-- One `breakdown[model]` group of `getCostBreakdown`. -/
structure CostEntry where
  requests : Nat
  tokens : Nat
  cost : Rat
deriving DecidableEq

/-- One step of `getCostBreakdown`: initialise the key to zeros if absent,
then add the record's request, token and cost contributions. -/
def addToBreakdown : List (String × CostEntry) → String → Nat → Rat → List (String × CostEntry)
  | [], m, tok, c => [(m, { requests := 1, tokens := tok, cost := c })]
  | (k, e) :: rest, m, tok, c =>
    if k = m then
      (k, { requests := e.requests + 1, tokens := e.tokens + tok, cost := e.cost + c }) :: rest
    else (k, e) :: addToBreakdown rest m tok c

/-- Embedding of `ProviderService.getCostBreakdown` (part_005 lines
400-416): a fold over the entire, unfiltered ledger. -/
def getCostBreakdown (requests : List ApiRequest) : List (String × CostEntry) :=
  requests.foldl
    (fun acc r => addToBreakdown acc (modelNameOf r) (r.totalTokens.getD 0) (r.cost.getD 0)) []

/-- Spec-side date predicate, written from the specification's words: a
timestamp lies within `[startDate, endDate]` inclusive, each bound
independently optional. Compared below against the source-side sequential
filters of `filterByDateRange`. -/
def inDateRange (startDate endDate : Option Int) (t : Int) : Bool :=
  (match startDate with
   | some s => decide (s ≤ t)
   | none => true) &&
  (match endDate with
   | some e => decide (t ≤ e)
   | none => true)

/-- Record lookup on the association-list image of a JS object. -/
def lookupCount (l : List (String × Nat)) (m : String) : Nat :=
  ((l.find? (fun p => p.1 == m)).map (fun p => p.2)).getD 0

/-- Record lookup in a cost breakdown. -/
def lookupEntry (l : List (String × CostEntry)) (m : String) : Option CostEntry :=
  (l.find? (fun p => p.1 == m)).map (fun p => p.2)

/-! ## Review orchestrator (`CodeReviewerService`, src/unnamed/part_005) -/

/-- A changed file as returned by `getPullRequestFiles`. -/
structure PRFile where
  filename : String
  status : String
  patch : Option String
deriving DecidableEq

/-- The slice of PR metadata the orchestrator reads. -/
structure PullRequestInfo where
  title : String
deriving DecidableEq

/-- A file handed to the provider capability's `reviewPullRequest`. -/
structure ReviewFile where
  filename : String
  content : String
  patch : Option String
deriving DecidableEq

/-- One comment of a `CodeReview`. -/
structure CodeReviewComment where
  path : String
  body : String
  position : Option Nat
deriving DecidableEq

/-- The `CodeReview` structure of `src/types/index.ts`. -/
structure CodeReview where
  comments : List CodeReviewComment
  summary : String
  approved : Bool
deriving DecidableEq

/-- One element of the orchestrator's `fileContents` array: the file, the
fetched content (empty for removed or failed files) and the per-file fetch
error, if any. -/
structure FetchedFile where
  file : PRFile
  content : String
  error : Option String
deriving DecidableEq

/-- The per-file content fetch of `reviewPullRequest` (part_005 lines
21-39): a removed file contributes empty content; a fetch failure is
recorded per file, never aborting the batch. `fetch` stands for
`githubService.getFileContent` at the PR head commit. -/
def fetchFileContents (fetch : String → Except String String) (files : List PRFile) :
    List FetchedFile :=
  files.map fun f =>
    if f.status = "removed" then { file := f, content := "", error := none }
    else
      match fetch f.filename with
      | .ok c => { file := f, content := c, error := none }
      | .error e => { file := f, content := "", error := some e }

/-- The filter `(item) => !item.error && item.content` (truthiness: an
empty content string is falsy). -/
def isReviewable (i : FetchedFile) : Bool := i.error.isNone && !(i.content == "")

/-- The `reviewFiles` array (part_005 lines 43-49). -/
def reviewableFiles (fcs : List FetchedFile) : List ReviewFile :=
  (fcs.filter isReviewable).map fun i =>
    { filename := i.file.filename, content := i.content, patch := i.file.patch }

/-- The zero-reviewable-files summary (part_005 line 55). -/
def noReviewableSummary (prNumber : Nat) (title : String) : String :=
  "No reviewable files found in PR #" ++ toString prNumber ++ ": " ++ title

/-- The default summary used when the AI review's summary is falsy
(part_005 line 66). -/
def reviewedSummary (fileCount prNumber : Nat) (title : String) : String :=
  "Reviewed " ++ toString fileCount ++ " files in PR #" ++ toString prNumber ++ ": " ++ title

/-- The degraded-review summary of the fallback branch (part_005 line
83). -/
def fallbackSummary (fileCount prNumber : Nat) (title : String) : String :=
  reviewedSummary fileCount prNumber title ++ " (AI review failed)"

/-- The placeholder comment of the fallback branch (part_005 lines
73-79). -/
def fallbackComment (i : FetchedFile) : CodeReviewComment :=
  { path := i.file.filename, body := "Reviewed file: " ++ i.file.filename, position := some 1 }

/-- Embedding of `CodeReviewerService.reviewPullRequest` (part_005 lines
15-87). `capability` stands for `claudeService.reviewPullRequest`, whose
thrown exception is `Except.error`. The second component counts how many
times the provider capability was invoked. The function is total: a
capability throw is converted into the degraded fallback review, never
propagated. -/
def reviewerReviewPullRequest (pr : PullRequestInfo) (prNumber : Nat) (files : List PRFile)
    (fetch : String → Except String String)
    (capability : List ReviewFile → Except String CodeReview) : CodeReview × Nat :=
  let fileContents := fetchFileContents fetch files
  let reviewFiles := reviewableFiles fileContents
  if reviewFiles.length = 0 then
    ({ comments := [], summary := noReviewableSummary prNumber pr.title, approved := false }, 0)
  else
    match capability reviewFiles with
    | .ok aiReview =>
      ({ comments := aiReview.comments
         summary :=
           if aiReview.summary = "" then reviewedSummary files.length prNumber pr.title
           else aiReview.summary
         approved := aiReview.approved }, 1)
    | .error _ =>
      ({ comments := (fileContents.filter isReviewable).map fallbackComment
         summary := fallbackSummary files.length prNumber pr.title
         approved := false }, 1)

/-! ## Markdown fence stripping (`ProviderService.extractJsonFromMarkdown`)

The source applies two single-occurrence regex replaces to the provider
text: `/^```json\s*/m` then `/\s*```$/m`. They are modelled character-
exactly on `List Char`: leftmost match, `^`/`$` at line boundaries
(multiline flag), greedy backtracking `\s*`. -/

/-- The whitespace class `\s` as it can occur in the ASCII texts at hand
(space, tab, line feed, carriage return, vertical tab, form feed). -/
def isJsWs (c : Char) : Bool :=
  [' ', '\t', '\n', '\r', '\x0b', '\x0c'].contains c

/-- The literal characters of the opening-fence pattern. -/
def openFence : List Char := ['`', '`', '`', 'j', 's', 'o', 'n']

/-- Scan for the first line start bearing ```json and remove it together
with the greedy whitespace run that follows (`^```json\s*`, first
occurrence only). -/
def replaceOpenFenceGo : Bool → List Char → List Char
  | _, [] => []
  | lineStart, c :: rest =>
    if lineStart && openFence.isPrefixOf (c :: rest) then
      ((c :: rest).drop 7).dropWhile isJsWs
    else c :: replaceOpenFenceGo (c == '\n') rest

/-- First replace of `extractJsonFromMarkdown`. -/
def replaceOpenFence (s : List Char) : List Char := replaceOpenFenceGo true s

/-- The literal characters of the closing-fence pattern. -/
def closeTail : List Char := ['`', '`', '`']

/-- Does `\s*```$` match at the head of `l` consuming exactly `t`
whitespace characters (the ``` must be followed by a line boundary)? -/
def closeCheck (l : List Char) (t : Nat) : Bool :=
  closeTail.isPrefixOf (l.drop t) &&
    (match l.drop (t + 3) with
     | [] => true
     | c :: _ => c == '\n' || c == '\r')

/-- Greedy backtracking over the whitespace-run length: the largest
`t` (at most the maximal run) for which the close pattern matches,
returning the total matched length `t + 3`. -/
def closeGreedy (l : List Char) : Nat → Option Nat
  | 0 => if closeCheck l 0 then some 3 else none
  | t + 1 => if closeCheck l (t + 1) then some (t + 1 + 3) else closeGreedy l t

/-- Length of the `\s*```$` match starting exactly at the head of `l`,
if any. -/
def closeMatchLen (l : List Char) : Option Nat :=
  closeGreedy l (l.takeWhile isJsWs).length

/-- Second replace of `extractJsonFromMarkdown`: remove the leftmost
`\s*```$` match, first occurrence only. -/
def replaceCloseFence : List Char → List Char
  | [] => []
  | c :: rest =>
    match closeMatchLen (c :: rest) with
    | some m => (c :: rest).drop m
    | none => c :: replaceCloseFence rest

/-- Embedding of `ProviderService.extractJsonFromMarkdown` (part_005
lines 318-326): empty (falsy) input maps to the empty string, otherwise
the two replaces are applied in order. -/
def extractJsonFromMarkdown (s : List Char) : List Char :=
  if s = [] then [] else replaceCloseFence (replaceOpenFence s)

/-! ## JSON.parse model

A minimal executable model of `JSON.parse`, sufficient for the texts the
review pipeline feeds it: ECMA-404 values with strings (including the
standard escapes), numbers kept as their lexemes, arrays and objects.
Only used to evaluate concrete review texts. -/

/-- A parsed JSON value (numbers are carried as lexemes). -/
inductive Json where
  | null
  | bool (b : Bool)
  | num (lexeme : String)
  | str (s : String)
  | arr (items : List Json)
  | obj (members : List (String × Json))

/-- JSON's own whitespace (ECMA-404: space, tab, line feed, carriage
return). -/
def jsonSkipWs (l : List Char) : List Char :=
  l.dropWhile (fun c => [' ', '\t', '\n', '\r'].contains c)

/-- Decimal digit test (by code point). -/
def isDigitCh (c : Char) : Bool := 48 ≤ c.toNat && c.toNat ≤ 57

/-- Value of a hexadecimal digit (by code point). -/
def hexVal (c : Char) : Option Nat :=
  let n := c.toNat
  if 48 ≤ n && n ≤ 57 then some (n - 48)
  else if 97 ≤ n && n ≤ 102 then some (n - 87)
  else if 65 ≤ n && n ≤ 70 then some (n - 55)
  else none

/-- The table of single-character JSON escapes: escape letter paired with
the denoted character. -/
def escPairs : List (Char × Char) :=
  [('"', '"'), ('\\', '\\'), ('/', '/'), ('b', '\x08'), ('f', '\x0c'), ('n', '\n'),
   ('r', '\x0d'), ('t', '\t')]

/-- Single-character JSON escapes. -/
def escChar (c : Char) : Option Char :=
  (escPairs.find? (fun p => p.1 == c)).map (fun p => p.2)

/-- Parse the body of a JSON string after the opening quote, returning
the decoded characters and the remainder after the closing quote. -/
def parseStringBody : Nat → List Char → Except String (List Char × List Char)
  | 0, _ => .error "Unterminated string in JSON"
  | _ + 1, [] => .error "Unterminated string in JSON"
  | fuel + 1, c :: rest =>
    if c == '"' then .ok ([], rest)
    else if c == '\\' then
      match rest with
      | [] => .error "Bad escape in JSON"
      | e :: rest2 =>
        if e == 'u' then
          match rest2 with
          | h1 :: h2 :: h3 :: h4 :: rest3 =>
            match hexVal h1, hexVal h2, hexVal h3, hexVal h4 with
            | some v1, some v2, some v3, some v4 =>
              (parseStringBody fuel rest3).map
                (fun p => (Char.ofNat (((v1 * 16 + v2) * 16 + v3) * 16 + v4) :: p.1, p.2))
            | _, _, _, _ => .error "Bad unicode escape in JSON"
          | _ => .error "Bad unicode escape in JSON"
        else
          match escChar e with
          | some ch => (parseStringBody fuel rest2).map (fun p => (ch :: p.1, p.2))
          | none => .error "Bad escape in JSON"
    else (parseStringBody fuel rest).map (fun p => (c :: p.1, p.2))

/-- Parse a JSON number lexeme (`-? digits frac? exp?`). -/
def parseNumber (l : List Char) : Except String (List Char × List Char) :=
  let (neg, l1) := if l.head? = some '-' then (['-'], l.drop 1) else (([] : List Char), l)
  let ds := l1.takeWhile isDigitCh
  if ds = [] then .error "Bad number in JSON"
  else
    let l2 := l1.drop ds.length
    let (frac, l3) :=
      match l2 with
      | '.' :: l2t =>
        let fs := l2t.takeWhile isDigitCh
        if fs = [] then (([] : List Char), l2) else ('.' :: fs, l2t.drop fs.length)
      | _ => (([] : List Char), l2)
    let (ex, l4) :=
      match l3 with
      | 'e' :: l3t =>
        let (sg, l3s) :=
          match l3t with
          | '-' :: r => (['-'], r)
          | '+' :: r => (['+'], r)
          | _ => (([] : List Char), l3t)
        let es := l3s.takeWhile isDigitCh
        if es = [] then (([] : List Char), l3) else ('e' :: sg ++ es, l3s.drop es.length)
      | 'E' :: l3t =>
        let (sg, l3s) :=
          match l3t with
          | '-' :: r => (['-'], r)
          | '+' :: r => (['+'], r)
          | _ => (([] : List Char), l3t)
        let es := l3s.takeWhile isDigitCh
        if es = [] then (([] : List Char), l3) else ('E' :: sg ++ es, l3s.drop es.length)
      | _ => (([] : List Char), l3)
    .ok (neg ++ ds ++ frac ++ ex, l4)

mutual

/-- Parse one JSON value. -/
def parseValue : Nat → List Char → Except String (Json × List Char)
  | 0, _ => .error "JSON too deep"
  | fuel + 1, l =>
    match jsonSkipWs l with
    | [] => .error "Unexpected end of JSON input"
    | 'n' :: 'u' :: 'l' :: 'l' :: rest => .ok (.null, rest)
    | 't' :: 'r' :: 'u' :: 'e' :: rest => .ok (.bool true, rest)
    | 'f' :: 'a' :: 'l' :: 's' :: 'e' :: rest => .ok (.bool false, rest)
    | '"' :: rest =>
      (parseStringBody (rest.length + 1) rest).map (fun p => (.str (String.mk p.1), p.2))
    | '[' :: rest => (parseArrayItems fuel rest true).map (fun p => (.arr p.1, p.2))
    | '\x7b' :: rest => (parseObjectItems fuel rest true).map (fun p => (.obj p.1, p.2))
    | c :: rest =>
      if c == '-' || isDigitCh c then
        (parseNumber (c :: rest)).map (fun p => (.num (String.mk p.1), p.2))
      else .error "Unexpected token in JSON"

/-- Parse the items of a JSON array after the opening bracket. -/
def parseArrayItems : Nat → List Char → Bool → Except String (List Json × List Char)
  | 0, _, _ => .error "JSON too deep"
  | fuel + 1, l, isFirst =>
    match jsonSkipWs l with
    | ']' :: rest =>
      if isFirst then .ok ([], rest) else .error "Unexpected ] in JSON array"
    | l1 =>
      match parseValue fuel l1 with
      | .error e => .error e
      | .ok (v, r) =>
        match jsonSkipWs r with
        | ',' :: r2 => (parseArrayItems fuel r2 false).map (fun p => (v :: p.1, p.2))
        | ']' :: r2 => .ok ([v], r2)
        | _ => .error "Expected comma or bracket in JSON array"

/-- Parse the members of a JSON object after the opening brace. -/
def parseObjectItems : Nat → List Char → Bool → Except String (List (String × Json) × List Char)
  | 0, _, _ => .error "JSON too deep"
  | fuel + 1, l, isFirst =>
    match jsonSkipWs l with
    | '\x7d' :: rest =>
      if isFirst then .ok ([], rest) else .error "Unexpected brace in JSON object"
    | '"' :: rest =>
      match parseStringBody (rest.length + 1) rest with
      | .error e => .error e
      | .ok (key, r) =>
        match jsonSkipWs r with
        | ':' :: r2 =>
          match parseValue fuel r2 with
          | .error e => .error e
          | .ok (v, r3) =>
            match jsonSkipWs r3 with
            | ',' :: r4 =>
              (parseObjectItems fuel r4 false).map (fun p => ((String.mk key, v) :: p.1, p.2))
            | '\x7d' :: r4 => .ok ([(String.mk key, v)], r4)
            | _ => .error "Expected comma or brace in JSON object"
        | _ => .error "Expected colon in JSON object"
    | _ => .error "Expected string key in JSON object"

end

/-- Model of `JSON.parse`: parse one value and require only whitespace
after it. -/
def jsonParse (l : List Char) : Except String Json :=
  match parseValue (l.length + 1) l with
  | .error e => .error e
  | .ok (v, rest) =>
    if jsonSkipWs rest = [] then .ok v
    else .error "Unexpected non-whitespace character after JSON"

/-! ## Review-text parsing steps of `reviewPullRequest` per variant -/

/-- The parse step of `ChatGPTService.reviewPullRequest` (chatgpt.ts
lines 207-219): strip fences, require a truthy remainder, parse, and wrap
any failure as `Failed to parse response as JSON: ...`. -/
def chatgptReviewParse (content : List Char) : Except String Json :=
  let jsonString := extractJsonFromMarkdown content
  if jsonString ≠ [] then
    match jsonParse jsonString with
    | .ok v => .ok v
    | .error e => .error ("Failed to parse response as JSON: " ++ e)
  else .error "Failed to parse response as JSON: Could not extract JSON from the response"

/-- The parse step of `GeminiService.reviewPullRequest` (gemini.ts lines
211-218): `JSON.parse(response.content)` directly, no fence stripping. -/
def geminiReviewParse (content : List Char) : Except String Json :=
  match jsonParse content with
  | .ok v => .ok v
  | .error e => .error ("Failed to parse response as JSON: " ++ e)

/-- The parse step of `ClaudeService.reviewPullRequest` (part_003 lines
290-297): `JSON.parse(response.content)` directly, no fence stripping. -/
def claudeReviewParse (content : List Char) : Except String Json :=
  match jsonParse content with
  | .ok v => .ok v
  | .error e => .error ("Failed to parse response as JSON: " ++ e)

/-- The fenced form of a review text as one vendor produces it in
practice: three backticks and `json`, a newline, the body, a newline,
three backticks. -/
def fenceWrap (U : List Char) : List Char := openFence ++ '\n' :: (U ++ '\n' :: closeTail)

/-- Discriminator of a parse outcome. -/
def parseSucceeded (e : Except String Json) : Bool :=
  match e with
  | .ok _ => true
  | .error _ => false

/-- A concrete well-formed review JSON text. -/
def unfencedReviewText : List Char :=
  ("\x7b\"comments\":[],\"summary\":\"ok\",\"approved\":true\x7d").toList

/-- The same review text wrapped in the markdown code fence one vendor
produces in practice. -/
def fencedReviewText : List Char :=
  ("```json\n").toList ++ unfencedReviewText ++ ("\n```").toList

/-! ## Theorems -/

/-- Validation of the SHA-256 embedding against the FIPS 180-4 test
vector for the empty message. -/
theorem sha256_empty_vector : sha256 [] =
    [0xe3, 0xb0, 0xc4, 0x42, 0x98, 0xfc, 0x1c, 0x14, 0x9a, 0xfb, 0xf4, 0xc8, 0x99, 0x6f, 0xb9,
     0x24, 0x27, 0xae, 0x41, 0xe4, 0x64, 0x9b, 0x93, 0x4c, 0xa4, 0x95, 0x99, 0x1b, 0x78, 0x52,
     0xb8, 0x55] := by decide

/-- Validation of the SHA-256 embedding against the FIPS 180-4 test
vector for the message `abc`. -/
theorem sha256_abc_vector : sha256 [0x61, 0x62, 0x63] =
    [0xba, 0x78, 0x16, 0xbf, 0x8f, 0x01, 0xcf, 0xea, 0x41, 0x41, 0x40, 0xde, 0x5d, 0xae, 0x22,
     0x23, 0xb0, 0x03, 0x61, 0xa3, 0x96, 0x17, 0x7a, 0x9c, 0xb4, 0x10, 0xff, 0x61, 0xf2, 0x00,
     0x15, 0xad] := by decide

theorem hexDigit_injective (a b : Nat) (h : hexDigit a = hexDigit b) : a = b := by
  unfold hexDigit at h
  split_ifs at h <;> omega

theorem hexOfBytes_injective : ∀ {xs ys : List Nat}, hexOfBytes xs = hexOfBytes ys → xs = ys := by
  intro xs
  induction xs with
  | nil =>
    intro ys h
    cases ys with
    | nil => rfl
    | cons y ys => simp [hexOfBytes] at h
  | cons x xs ih =>
    intro ys h
    cases ys with
    | nil => simp [hexOfBytes] at h
    | cons y ys =>
      simp only [hexOfBytes, List.foldr_cons, List.cons.injEq] at h
      obtain ⟨h1, h2, h3⟩ := h
      have e1 := hexDigit_injective _ _ h1
      have e2 := hexDigit_injective _ _ h2
      have hx : x = y := by omega
      have ht : xs = ys := ih h3
      rw [hx, ht]

theorem verifySignature_some_some (sig body secret : List Nat) :
    verifySignature (some sig) (some body) secret =
      if sig.length ≠ (expectedSignature secret body).length then false
      else timingSafeEqual sig (expectedSignature secret body) := rfl

theorem verifySignature_false_of_ne (secret body : List Nat) (sig : List Nat)
    (h : sig ≠ expectedSignature secret body) :
    verifySignature (some sig) (some body) secret = false := by
  rw [verifySignature_some_some]
  by_cases hl : sig.length = (expectedSignature secret body).length
  · rw [if_neg (by simpa using hl)]
    simpa [timingSafeEqual] using h
  · rw [if_pos (by simpa using hl)]

/-- C1. Webhook signature verification is correct and fail-closed: the
header `sha256=` + hex(HMAC-SHA-256(secret, body)) verifies; any other
header value (in particular, any single-byte change of the signature, and
any header whose byte length differs from the expected digest string) is
rejected; any body whose HMAC digest differs from the signed one (in
particular, any single-byte change of the body that changes the digest) is
rejected; a missing header or missing raw body is rejected; the embedded
comparison is total, so no exception can escape it (the source maps any
comparison exception to `false`). -/
theorem webhook_signature_verification_fail_closed (secret body : List Nat) :
    verifySignature (some (expectedSignature secret body)) (some body) secret = true
    ∧ (∀ sig, sig ≠ expectedSignature secret body →
        verifySignature (some sig) (some body) secret = false)
    ∧ (∀ sig, sig.length ≠ (expectedSignature secret body).length →
        verifySignature (some sig) (some body) secret = false)
    ∧ (∀ body2, hmacSha256 secret body2 ≠ hmacSha256 secret body →
        verifySignature (some (expectedSignature secret body)) (some body2) secret = false)
    ∧ verifySignature none (some body) secret = false
    ∧ (∀ sig, verifySignature (some sig) none secret = false) := by
  refine ⟨?_, ?_, ?_, ?_, rfl, fun sig => rfl⟩
  · rw [verifySignature_some_some]
    simp [timingSafeEqual]
  · exact fun sig h => verifySignature_false_of_ne secret body sig h
  · intro sig h
    exact verifySignature_false_of_ne secret body sig (fun he => h (by rw [he]))
  · intro body2 hne
    apply verifySignature_false_of_ne secret body2
    intro heq
    unfold expectedSignature at heq
    exact hne (hexOfBytes_injective (List.append_cancel_left heq)).symm

set_option maxRecDepth 100000 in
set_option maxHeartbeats 1000000 in
/-- Witness for C1 at a concrete secret, body, and a body differing in one
byte: the genuine signature verifies, and against the changed body (whose
HMAC digest differs, checked by evaluation) it is rejected. -/
theorem webhook_signature_verification_fail_closed_witness :
    verifySignature (some (expectedSignature [107, 101, 121] [104, 105])) (some [104, 105])
        [107, 101, 121] = true
    ∧ verifySignature (some (expectedSignature [107, 101, 121] [104, 105])) (some [104, 106])
        [107, 101, 121] = false :=
  ⟨(webhook_signature_verification_fail_closed [107, 101, 121] [104, 105]).1,
   (webhook_signature_verification_fail_closed [107, 101, 121] [104, 105]).2.2.2.1
     [104, 106] (by decide)⟩

/-- C2. `generateResponse` is fail-closed in every provider variant: on a
rejected transport promise, and on a malformed response shape after a
successful transport (ChatGPT: unusable `choices`; Gemini: a throwing
`text()` accessor), it appends a CallRecord marked `success = false` with
the error captured and returns `{content: "", success: false, error}`;
being a total function, it never itself throws. -/
theorem generateResponse_fail_closed (cfg : ModelConfig) (ledger : List ApiRequest)
    (prompt : String) (requestTime : Int) (latency : Nat) :
    (∀ (o : OptionsRecord) (e : String),
      chatgptGenerateResponse cfg ledger prompt o (.threw e) requestTime latency =
        (ledger ++ [failedRecord requestTime prompt o e latency],
         { content := "", success := false, error := some e }))
    ∧ (∀ (o : OptionsRecord) (choices : List ChatChoice) (usage : Option ChatUsage),
        chatgptExtractText choices = none →
        chatgptGenerateResponse cfg ledger prompt o (.ok choices usage) requestTime latency =
          (ledger ++ [chatgptSuccessRecord cfg requestTime prompt o usage latency,
                      failedRecord requestTime prompt o chatgptShapeError latency],
           { content := "", success := false, error := some chatgptShapeError }))
    ∧ (∀ (go : GeminiOptions) (e : String),
        geminiGenerateResponse cfg ledger prompt go (.threw e) requestTime latency =
          (ledger ++ [failedRecord requestTime prompt (geminiRawOptionsRecord go) e latency],
           { content := "", success := false, error := some e }))
    ∧ (∀ (go : GeminiOptions) (um : Option GeminiUsageMetadata) (e : String),
        geminiGenerateResponse cfg ledger prompt go (.ok ⟨um, .error e⟩) requestTime latency =
          (ledger ++ [geminiSuccessRecord cfg requestTime prompt um latency,
                      failedRecord requestTime prompt (geminiRawOptionsRecord go) e latency],
           { content := "", success := false, error := some e }))
    ∧ (∀ (t : Int) (p2 : String) (o : OptionsRecord) (e : String) (lat : Nat),
        (failedRecord t p2 o e lat).success = false ∧ (failedRecord t p2 o e lat).error = some e) := by
  refine ⟨fun o e => rfl, ?_, fun go e => rfl, ?_, fun t p2 o e lat => ⟨rfl, rfl⟩⟩
  · intro o choices usage h
    simp [chatgptGenerateResponse, h]
  · intro go um e
    simp [geminiGenerateResponse]

/-- Witness for C2: a concrete malformed ChatGPT response (empty `choices`
array) yields the failed response and a failure-marked trailing record. -/
theorem generateResponse_fail_closed_witness :
    chatgptGenerateResponse ⟨"m", 100, 1, []⟩ [] "p" ⟨none, none, none⟩ (.ok [] none) 0 5 =
      ([chatgptSuccessRecord ⟨"m", 100, 1, []⟩ 0 "p" ⟨none, none, none⟩ none 5,
        failedRecord 0 "p" ⟨none, none, none⟩ chatgptShapeError 5],
       { content := "", success := false, error := some chatgptShapeError }) :=
  (generateResponse_fail_closed ⟨"m", 100, 1, []⟩ [] "p" 0 5).2.1 ⟨none, none, none⟩ [] none rfl

/-- C3 counterexample. A ChatGPT response whose shape is unexpected after
a successful transport appends TWO CallRecords in one call attempt
(first the success-marked record, then the catch's failure record), so
the ledger does not grow by exactly one. -/
theorem exactly_one_record_counterexample :
    ((chatgptGenerateResponse ⟨"m", 100, 1, []⟩ [] "p" ⟨none, none, none⟩
        (.ok [] none) 0 5).1).length = 2
    ∧ ((chatgptGenerateResponse ⟨"m", 100, 1, []⟩ [] "p" ⟨none, none, none⟩
        (.ok [] none) 0 5).1).length ≠ 1 := by
  constructor <;> decide

/-- C3 amended. Exactly one CallRecord is appended per call attempt when
the transport call throws and when it succeeds with a well-formed
response; when the response shape is unexpected after a successful
transport (ChatGPT unusable choices, Gemini throwing `text()`), two
records are appended: the success-marked one and the catch's
failure-marked one. -/
theorem record_count_per_call (cfg : ModelConfig) (ledger : List ApiRequest) (prompt : String)
    (requestTime : Int) (latency : Nat) :
    (∀ (o : OptionsRecord) (e : String),
      ((chatgptGenerateResponse cfg ledger prompt o (.threw e) requestTime latency).1).length
        = ledger.length + 1)
    ∧ (∀ (o : OptionsRecord) (choices : List ChatChoice) (usage : Option ChatUsage) (c : String),
        chatgptExtractText choices = some c →
        ((chatgptGenerateResponse cfg ledger prompt o (.ok choices usage)
            requestTime latency).1).length = ledger.length + 1)
    ∧ (∀ (o : OptionsRecord) (choices : List ChatChoice) (usage : Option ChatUsage),
        chatgptExtractText choices = none →
        ((chatgptGenerateResponse cfg ledger prompt o (.ok choices usage)
            requestTime latency).1).length = ledger.length + 2)
    ∧ (∀ (go : GeminiOptions) (e : String),
        ((geminiGenerateResponse cfg ledger prompt go (.threw e) requestTime latency).1).length
          = ledger.length + 1)
    ∧ (∀ (go : GeminiOptions) (um : Option GeminiUsageMetadata) (t : String),
        ((geminiGenerateResponse cfg ledger prompt go (.ok ⟨um, .ok t⟩)
            requestTime latency).1).length = ledger.length + 1)
    ∧ (∀ (go : GeminiOptions) (um : Option GeminiUsageMetadata) (e : String),
        ((geminiGenerateResponse cfg ledger prompt go (.ok ⟨um, .error e⟩)
            requestTime latency).1).length = ledger.length + 2) := by
  refine ⟨?_, ?_, ?_, ?_, ?_, ?_⟩
  · intro o e; simp [chatgptGenerateResponse]
  · intro o choices usage c h; simp [chatgptGenerateResponse, h]
  · intro o choices usage h; simp [chatgptGenerateResponse, h]
  · intro go e; simp [geminiGenerateResponse]
  · intro go um t; simp [geminiGenerateResponse]
  · intro go um e; simp [geminiGenerateResponse]

/-- Witness for C3 amended: one record for a concrete well-formed ChatGPT
success, two for a concrete Gemini call whose `text()` throws. -/
theorem record_count_per_call_witness :
    ((chatgptGenerateResponse ⟨"m", 100, 1, []⟩ [] "p" ⟨none, none, none⟩
        (.ok [⟨some ⟨some "hi"⟩⟩] none) 0 5).1).length = List.length ([] : List ApiRequest) + 1
    ∧ ((geminiGenerateResponse ⟨"m", 100, 1, []⟩ [] "p" ⟨none, none⟩
        (.ok ⟨none, .error "boom"⟩) 0 5).1).length
      = List.length ([] : List ApiRequest) + 2 :=
  ⟨(record_count_per_call ⟨"m", 100, 1, []⟩ [] "p" 0 5).2.1
      ⟨none, none, none⟩ [⟨some ⟨some "hi"⟩⟩] none "hi" rfl,
   (record_count_per_call ⟨"m", 100, 1, []⟩ [] "p" 0 5).2.2.2.2.2 ⟨none, none⟩ none "boom"⟩

/-- C5 counterexample. The Gemini variant does not merge caller options
over instance defaults: a caller-supplied token limit of 5 (inside the
caller's `generationConfig`) is silently replaced by the instance default
of 1000 in the issued request. -/
theorem options_merge_counterexample :
    (geminiIssuedRequest ⟨"gemini-pro", 1000, 1, []⟩ "p"
        ⟨none, some (some 5, none)⟩).maxOutputTokens = 1000
    ∧ (geminiIssuedRequest ⟨"gemini-pro", 1000, 1, []⟩ "p"
        ⟨none, some (some 5, none)⟩).maxOutputTokens ≠ 5 := by
  constructor <;> decide

/-- C5 amended. The ChatGPT variant merges caller options over instance
defaults (a caller-supplied model, token limit or temperature is honoured
and absent ones fall back to the defaults); the Gemini variant issues the
model, token limit and temperature from the instance config regardless of
the caller options, honouring only caller-supplied `contents`. -/
theorem options_merge_amended (cfg : ModelConfig) :
    (∀ (o : OptionsRecord) (m : String), o.model = some m →
      (mergeChatGPTOptions cfg o).model = some m)
    ∧ (∀ (o : OptionsRecord) (mt : Nat), o.maxTokens = some mt →
        (mergeChatGPTOptions cfg o).maxTokens = some mt)
    ∧ (∀ (o : OptionsRecord) (tp : Rat), o.temperature = some tp →
        (mergeChatGPTOptions cfg o).temperature = some tp)
    ∧ (∀ o : OptionsRecord, o.model = none →
        (mergeChatGPTOptions cfg o).model = some cfg.model)
    ∧ (∀ (prompt : String) (go : GeminiOptions),
        (geminiIssuedRequest cfg prompt go).model = cfg.model
        ∧ (geminiIssuedRequest cfg prompt go).maxOutputTokens = cfg.maxTokens
        ∧ (geminiIssuedRequest cfg prompt go).temperature = cfg.temperature)
    ∧ (∀ (prompt : String) (go : GeminiOptions) (cs : List String), go.contents = some cs →
        (geminiIssuedRequest cfg prompt go).contents = cs) := by
  refine ⟨?_, ?_, ?_, ?_, fun prompt go => ⟨rfl, rfl, rfl⟩, ?_⟩
  · intro o m h; simp [mergeChatGPTOptions, h]
  · intro o mt h; simp [mergeChatGPTOptions, h]
  · intro o tp h; simp [mergeChatGPTOptions, h]
  · intro o h; simp [mergeChatGPTOptions, h]
  · intro prompt go cs h; simp [geminiIssuedRequest, h]

/-- Witness for C5 amended: a concrete caller-supplied model and token
limit survive the ChatGPT merge. -/
theorem options_merge_amended_witness :
    (mergeChatGPTOptions ⟨"m", 100, 1, []⟩ ⟨some "gpt-4", none, none⟩).model = some "gpt-4"
    ∧ (mergeChatGPTOptions ⟨"m", 100, 1, []⟩ ⟨none, some 42, none⟩).maxTokens = some 42 :=
  ⟨(options_merge_amended ⟨"m", 100, 1, []⟩).1 ⟨some "gpt-4", none, none⟩ "gpt-4" rfl,
   (options_merge_amended ⟨"m", 100, 1, []⟩).2.1 ⟨none, some 42, none⟩ 42 rfl⟩

/-- C6. When at least one file qualifies for review and the provider
capability throws, the orchestrator returns (never throws) the degraded
review: exactly one placeholder comment per successfully fetched file
with non-empty content, `approved = false`, and the summary noting the AI
review failed; the capability was invoked exactly once. -/
theorem orchestrator_fallback_on_capability_throw (pr : PullRequestInfo) (prNumber : Nat)
    (files : List PRFile) (fetch : String → Except String String)
    (capability : List ReviewFile → Except String CodeReview) (e : String)
    (hcap : capability (reviewableFiles (fetchFileContents fetch files)) = .error e)
    (hne : reviewableFiles (fetchFileContents fetch files) ≠ []) :
    reviewerReviewPullRequest pr prNumber files fetch capability =
      ({ comments := ((fetchFileContents fetch files).filter isReviewable).map fallbackComment
         summary := fallbackSummary files.length prNumber pr.title
         approved := false }, 1)
    ∧ (((fetchFileContents fetch files).filter isReviewable).map fallbackComment).length
        = ((fetchFileContents fetch files).filter isReviewable).length := by
  constructor
  · simp only [reviewerReviewPullRequest]
    rw [if_neg (fun h0 => hne (List.length_eq_zero.mp h0)), hcap]
  · exact List.length_map _ _

/-- Witness for C6: one fetched file, a capability that throws; the
orchestrator returns the one-placeholder degraded review. -/
theorem orchestrator_fallback_on_capability_throw_witness :
    reviewerReviewPullRequest ⟨"T"⟩ 7 [⟨"a.ts", "modified", none⟩]
        (fun _ => .ok "code") (fun _ => .error "boom") =
      ({ comments := ((fetchFileContents (fun _ => .ok "code")
            [⟨"a.ts", "modified", none⟩]).filter isReviewable).map fallbackComment
         summary := fallbackSummary 1 7 "T"
         approved := false }, 1) :=
  (orchestrator_fallback_on_capability_throw ⟨"T"⟩ 7 [⟨"a.ts", "modified", none⟩]
      (fun _ => .ok "code") (fun _ => .error "boom") "boom" rfl (by decide)).1

/-- C7. When no file qualifies for review (every fetched item either
failed to fetch or has empty content — removed files are fetched as
empty), the orchestrator returns the empty review with `approved = false`
and the no-reviewable-files summary, and never invokes the provider
capability (invocation count 0). -/
theorem orchestrator_zero_reviewable_files (pr : PullRequestInfo) (prNumber : Nat)
    (files : List PRFile) (fetch : String → Except String String)
    (capability : List ReviewFile → Except String CodeReview)
    (h : ∀ i ∈ fetchFileContents fetch files, i.error ≠ none ∨ i.content = "") :
    reviewerReviewPullRequest pr prNumber files fetch capability =
      ({ comments := [], summary := noReviewableSummary prNumber pr.title
         approved := false }, 0) := by
  have hfilter : (fetchFileContents fetch files).filter isReviewable = [] := by
    rw [List.filter_eq_nil_iff]
    intro i hi
    rcases h i hi with he | hc
    · obtain ⟨v, hv⟩ := Option.ne_none_iff_exists'.mp he
      simp [isReviewable, hv]
    · simp [isReviewable, hc]
  have hrf : reviewableFiles (fetchFileContents fetch files) = [] := by
    unfold reviewableFiles
    rw [hfilter]
    rfl
  simp only [reviewerReviewPullRequest]
  rw [hrf]
  simp

/-- Witness for C7: one removed file and one failing fetch; the empty
no-reviewable-files review is returned with zero capability
invocations. -/
theorem orchestrator_zero_reviewable_files_witness :
    reviewerReviewPullRequest ⟨"T"⟩ 7 [⟨"a.ts", "removed", none⟩, ⟨"b.ts", "modified", none⟩]
        (fun _ => .error "nope") (fun _ => .ok ⟨[], "s", true⟩) =
      ({ comments := [], summary := noReviewableSummary 7 "T", approved := false }, 0) :=
  orchestrator_zero_reviewable_files ⟨"T"⟩ 7 [⟨"a.ts", "removed", none⟩, ⟨"b.ts", "modified", none⟩]
    (fun _ => .error "nope") (fun _ => .ok ⟨[], "s", true⟩) (by decide)

theorem filterByDateRange_eq_filter (requests : List ApiRequest) (startDate endDate : Option Int) :
    filterByDateRange requests startDate endDate
      = requests.filter (fun r => inDateRange startDate endDate r.timestamp) := by
  cases startDate with
  | none =>
    cases endDate with
    | none => simp [filterByDateRange, inDateRange]
    | some e => simp [filterByDateRange, inDateRange]
  | some s =>
    cases endDate with
    | none => simp [filterByDateRange, inDateRange]
    | some e =>
      simp only [filterByDateRange, inDateRange]
      rw [List.filter_filter]
      exact List.filter_congr (fun a _ => by rw [Bool.and_comm])

/-- C8. `getUsageAnalytics` filters the ledger to the records whose
timestamp lies within `[startDate, endDate]` inclusive (each bound
independently optional), and over that filtered set computes the
total/successful/failed counts, the token sums, the cost sum with an
absent cost as zero, and the average latency — zero on an empty filtered
set instead of a division by zero, and otherwise the exact quotient of
summed latency by count. -/
theorem usage_analytics_date_window (requests : List ApiRequest) (startDate endDate : Option Int) :
    (getUsageAnalytics requests startDate endDate).totalRequests
      = (requests.filter (fun r => inDateRange startDate endDate r.timestamp)).length
    ∧ (getUsageAnalytics requests startDate endDate).successfulRequests
      = ((requests.filter (fun r => inDateRange startDate endDate r.timestamp)).filter
          (fun r => r.success)).length
    ∧ (getUsageAnalytics requests startDate endDate).failedRequests
      = (requests.filter (fun r => inDateRange startDate endDate r.timestamp)).length
        - ((requests.filter (fun r => inDateRange startDate endDate r.timestamp)).filter
            (fun r => r.success)).length
    ∧ (getUsageAnalytics requests startDate endDate).inputTokens
      = ((requests.filter (fun r => inDateRange startDate endDate r.timestamp)).map
          (fun r => r.inputTokens.getD 0)).sum
    ∧ (getUsageAnalytics requests startDate endDate).outputTokens
      = ((requests.filter (fun r => inDateRange startDate endDate r.timestamp)).map
          (fun r => r.outputTokens.getD 0)).sum
    ∧ (getUsageAnalytics requests startDate endDate).totalTokens
      = ((requests.filter (fun r => inDateRange startDate endDate r.timestamp)).map
          (fun r => r.totalTokens.getD 0)).sum
    ∧ (getUsageAnalytics requests startDate endDate).totalCost
      = ((requests.filter (fun r => inDateRange startDate endDate r.timestamp)).map
          (fun r => r.cost.getD 0)).sum
    ∧ (requests.filter (fun r => inDateRange startDate endDate r.timestamp) = [] →
        (getUsageAnalytics requests startDate endDate).averageLatency = 0)
    ∧ (requests.filter (fun r => inDateRange startDate endDate r.timestamp) ≠ [] →
        (getUsageAnalytics requests startDate endDate).averageLatency
            * ((requests.filter (fun r => inDateRange startDate endDate r.timestamp)).length : Rat)
          = (((requests.filter (fun r => inDateRange startDate endDate r.timestamp)).map
              (fun r => r.latency)).sum : Rat)) := by
  have hF := filterByDateRange_eq_filter requests startDate endDate
  refine ⟨?_, ?_, ?_, ?_, ?_, ?_, ?_, ?_, ?_⟩
  · simp only [getUsageAnalytics, hF]
  · simp only [getUsageAnalytics, hF]
  · simp only [getUsageAnalytics, hF]
  · simp only [getUsageAnalytics, hF]
  · simp only [getUsageAnalytics, hF]
  · simp only [getUsageAnalytics, hF]
  · simp only [getUsageAnalytics, hF]
  · intro hEmpty
    simp only [getUsageAnalytics, hF, hEmpty]
    simp
  · intro hne
    have hlen : (requests.filter (fun r => inDateRange startDate endDate r.timestamp)).length ≠ 0 :=
      fun h0 => hne (List.length_eq_zero.mp h0)
    have hcast : ((requests.filter
        (fun r => inDateRange startDate endDate r.timestamp)).length : Rat) ≠ 0 := by
      exact_mod_cast hlen
    simp only [getUsageAnalytics, hF]
    rw [if_pos (Nat.pos_of_ne_zero hlen)]
    exact div_mul_cancel₀ _ hcast

/-- Witness for C8: on the empty ledger the average latency is zero, and
on a concrete one-record ledger the average times the count recovers the
latency sum. -/
theorem usage_analytics_date_window_witness :
    (getUsageAnalytics [] none none).averageLatency = 0
    ∧ (getUsageAnalytics [⟨3, "p", ⟨some "m", none, none⟩, true, 5, none, none, none, none, none⟩]
          (some 0) (some 10)).averageLatency
        * ((([⟨3, "p", ⟨some "m", none, none⟩, true, 5, none, none, none, none,
              none⟩] : List ApiRequest).filter
            (fun r => inDateRange (some 0) (some 10) r.timestamp)).length : Rat)
      = (((([⟨3, "p", ⟨some "m", none, none⟩, true, 5, none, none, none, none,
              none⟩] : List ApiRequest).filter
            (fun r => inDateRange (some 0) (some 10) r.timestamp)).map
          (fun r => r.latency)).sum : Rat) :=
  ⟨(usage_analytics_date_window [] none none).2.2.2.2.2.2.2.1 rfl,
   (usage_analytics_date_window
      [⟨3, "p", ⟨some "m", none, none⟩, true, 5, none, none, none, none, none⟩]
      (some 0) (some 10)).2.2.2.2.2.2.2.2 (by decide)⟩

theorem addToBreakdown_sum_requests (acc : List (String × CostEntry)) (m : String) (tok : Nat)
    (c : Rat) :
    ((addToBreakdown acc m tok c).map (fun p => p.2.requests)).sum
      = (acc.map (fun p => p.2.requests)).sum + 1 := by
  induction acc with
  | nil => simp [addToBreakdown]
  | cons p rest ih =>
    obtain ⟨k, en⟩ := p
    by_cases hk : k = m
    · simp [addToBreakdown, hk]
      omega
    · simp [addToBreakdown, hk, ih]
      omega

theorem addToBreakdown_sum_tokens (acc : List (String × CostEntry)) (m : String) (tok : Nat)
    (c : Rat) :
    ((addToBreakdown acc m tok c).map (fun p => p.2.tokens)).sum
      = (acc.map (fun p => p.2.tokens)).sum + tok := by
  induction acc with
  | nil => simp [addToBreakdown]
  | cons p rest ih =>
    obtain ⟨k, en⟩ := p
    by_cases hk : k = m
    · simp [addToBreakdown, hk]
      omega
    · simp [addToBreakdown, hk, ih]
      omega

theorem addToBreakdown_sum_cost (acc : List (String × CostEntry)) (m : String) (tok : Nat)
    (c : Rat) :
    ((addToBreakdown acc m tok c).map (fun p => p.2.cost)).sum
      = (acc.map (fun p => p.2.cost)).sum + c := by
  induction acc with
  | nil => simp [addToBreakdown]
  | cons p rest ih =>
    obtain ⟨k, en⟩ := p
    by_cases hk : k = m
    · simp [addToBreakdown, hk]
      ring
    · simp [addToBreakdown, hk, ih]
      ring

theorem breakdown_fold_requests (reqs : List ApiRequest) :
    ∀ acc : List (String × CostEntry),
    ((reqs.foldl (fun a r => addToBreakdown a (modelNameOf r) (r.totalTokens.getD 0)
        (r.cost.getD 0)) acc).map (fun p => p.2.requests)).sum
      = (acc.map (fun p => p.2.requests)).sum + reqs.length := by
  induction reqs with
  | nil => intro acc; simp
  | cons r rest ih =>
    intro acc
    simp only [List.foldl_cons, List.length_cons]
    rw [ih, addToBreakdown_sum_requests]
    omega

theorem breakdown_fold_tokens (reqs : List ApiRequest) :
    ∀ acc : List (String × CostEntry),
    ((reqs.foldl (fun a r => addToBreakdown a (modelNameOf r) (r.totalTokens.getD 0)
        (r.cost.getD 0)) acc).map (fun p => p.2.tokens)).sum
      = (acc.map (fun p => p.2.tokens)).sum + (reqs.map (fun r => r.totalTokens.getD 0)).sum := by
  induction reqs with
  | nil => intro acc; simp
  | cons r rest ih =>
    intro acc
    simp only [List.foldl_cons, List.map_cons, List.sum_cons]
    rw [ih, addToBreakdown_sum_tokens]
    omega

theorem breakdown_fold_cost (reqs : List ApiRequest) :
    ∀ acc : List (String × CostEntry),
    ((reqs.foldl (fun a r => addToBreakdown a (modelNameOf r) (r.totalTokens.getD 0)
        (r.cost.getD 0)) acc).map (fun p => p.2.cost)).sum
      = (acc.map (fun p => p.2.cost)).sum + (reqs.map (fun r => r.cost.getD 0)).sum := by
  induction reqs with
  | nil => intro acc; simp
  | cons r rest ih =>
    intro acc
    simp only [List.foldl_cons, List.map_cons, List.sum_cons]
    rw [ih, addToBreakdown_sum_cost]
    ring

/-- C9. `getCostBreakdown` runs over the entire unfiltered ledger grouped
by each record's model name, and its grouped totals sum back to the
ledger's totals: per-model request counts sum to the record count,
per-model token totals sum to the total-token sum, and per-model costs
sum to the cost sum (absent values as zero). -/
theorem cost_breakdown_sums_to_ledger_totals (requests : List ApiRequest) :
    ((getCostBreakdown requests).map (fun p => p.2.requests)).sum = requests.length
    ∧ ((getCostBreakdown requests).map (fun p => p.2.tokens)).sum
        = (requests.map (fun r => r.totalTokens.getD 0)).sum
    ∧ ((getCostBreakdown requests).map (fun p => p.2.cost)).sum
        = (requests.map (fun r => r.cost.getD 0)).sum := by
  unfold getCostBreakdown
  refine ⟨?_, ?_, ?_⟩
  · simpa using breakdown_fold_requests requests []
  · simpa using breakdown_fold_tokens requests []
  · simpa using breakdown_fold_cost requests []

theorem lookupCount_bumpModel (acc : List (String × Nat)) (m : String) :
    lookupCount (bumpModel acc m) m = lookupCount acc m + 1 := by
  induction acc with
  | nil => simp [bumpModel, lookupCount]
  | cons p rest ih =>
    obtain ⟨k, n⟩ := p
    by_cases hk : k = m
    · subst hk
      simp [bumpModel, lookupCount]
    · have hbeq : (k == m) = false := beq_eq_false_iff_ne.mpr hk
      simp [bumpModel, hk, lookupCount, hbeq] at ih ⊢
      exact ih

theorem requestsByModel_append_single (reqs : List ApiRequest) (r : ApiRequest) :
    (getUsageAnalytics (reqs ++ [r]) none none).requestsByModel
      = bumpModel ((getUsageAnalytics reqs none none).requestsByModel) (modelNameOf r) := by
  simp only [getUsageAnalytics, filterByDateRange]
  rw [List.foldl_append]
  rfl

theorem lookupRequests_addToBreakdown (acc : List (String × CostEntry)) (m : String) (tok : Nat)
    (c : Rat) :
    ((lookupEntry (addToBreakdown acc m tok c) m).map (fun en => en.requests)).getD 0
      = ((lookupEntry acc m).map (fun en => en.requests)).getD 0 + 1 := by
  induction acc with
  | nil => simp [addToBreakdown, lookupEntry]
  | cons p rest ih =>
    obtain ⟨k, en⟩ := p
    by_cases hk : k = m
    · subst hk
      simp [addToBreakdown, lookupEntry]
    · have hbeq : (k == m) = false := beq_eq_false_iff_ne.mpr hk
      simp [addToBreakdown, hk, lookupEntry, hbeq] at ih ⊢
      exact ih

theorem getCostBreakdown_append_single (reqs : List ApiRequest) (r : ApiRequest) :
    getCostBreakdown (reqs ++ [r])
      = addToBreakdown (getCostBreakdown reqs) (modelNameOf r) (r.totalTokens.getD 0)
          (r.cost.getD 0) := by
  unfold getCostBreakdown
  rw [List.foldl_append]
  rfl

/-- C10. A failed `generateResponse` call stores the raw caller options on
its CallRecord (no defaults merged in): with no caller-supplied model the
failed record's model is absent, so the failed request is counted under
the `unknown` sentinel both in `getUsageAnalytics`'s `requestsByModel`
and in `getCostBreakdown` — even though the merge that the request was
issued with resolves to the instance's default model (and a failed Gemini
record can never carry a model at all). -/
theorem failed_record_counts_as_unknown (cfg : ModelConfig) (ledger : List ApiRequest)
    (prompt : String) (o : OptionsRecord) (e : String) (t : Int) (lat : Nat)
    (hm : o.model = none) :
    (chatgptGenerateResponse cfg ledger prompt o (.threw e) t lat).1
      = ledger ++ [failedRecord t prompt o e lat]
    ∧ (failedRecord t prompt o e lat).options = o
    ∧ modelNameOf (failedRecord t prompt o e lat) = "unknown"
    ∧ (mergeChatGPTOptions cfg o).model = some cfg.model
    ∧ lookupCount ((getUsageAnalytics (ledger ++ [failedRecord t prompt o e lat])
          none none).requestsByModel) "unknown"
        = lookupCount ((getUsageAnalytics ledger none none).requestsByModel) "unknown" + 1
    ∧ ((lookupEntry (getCostBreakdown (ledger ++ [failedRecord t prompt o e lat]))
          "unknown").map (fun en => en.requests)).getD 0
        = ((lookupEntry (getCostBreakdown ledger) "unknown").map
            (fun en => en.requests)).getD 0 + 1
    ∧ (∀ go : GeminiOptions,
        modelNameOf (failedRecord t prompt (geminiRawOptionsRecord go) e lat) = "unknown") := by
  have hmn : modelNameOf (failedRecord t prompt o e lat) = "unknown" := by
    simp [modelNameOf, failedRecord, hm]
  refine ⟨rfl, rfl, hmn, by simp [mergeChatGPTOptions, hm], ?_, ?_, fun go => rfl⟩
  · rw [requestsByModel_append_single, hmn, lookupCount_bumpModel]
  · rw [getCostBreakdown_append_single, hmn, lookupRequests_addToBreakdown]

/-- Witness for C10: a concrete failed call with no caller model lands in
the `unknown` group of both aggregations. -/
theorem failed_record_counts_as_unknown_witness :
    lookupCount ((getUsageAnalytics ([] ++ [failedRecord 0 "p" ⟨none, none, none⟩ "x" 1])
        none none).requestsByModel) "unknown"
      = lookupCount ((getUsageAnalytics [] none none).requestsByModel) "unknown" + 1
    ∧ ((lookupEntry (getCostBreakdown ([] ++ [failedRecord 0 "p" ⟨none, none, none⟩ "x" 1]))
        "unknown").map (fun en => en.requests)).getD 0
      = ((lookupEntry (getCostBreakdown []) "unknown").map (fun en => en.requests)).getD 0 + 1 :=
  ⟨(failed_record_counts_as_unknown ⟨"m", 100, 1, []⟩ [] "p" ⟨none, none, none⟩ "x" 0 1
      rfl).2.2.2.2.1,
   (failed_record_counts_as_unknown ⟨"m", 100, 1, []⟩ [] "p" ⟨none, none, none⟩ "x" 0 1
      rfl).2.2.2.2.2.1⟩

theorem closeTail_isPrefixOf_eq_false (l2 : List Char) (h : ∀ c, l2.head? = some c → c ≠ '`') :
    closeTail.isPrefixOf l2 = false := by
  cases l2 with
  | nil => rfl
  | cons c cs =>
    have hc : c ≠ '`' := h c rfl
    have hbeq : ('`' == c) = false := beq_eq_false_iff_ne.mpr (fun he => hc he.symm)
    simp [closeTail, List.isPrefixOf, hbeq]

theorem closeCheck_eq_false_head (l : List Char) (t : Nat) (c : Char)
    (hc : (l.drop t).head? = some c) (hne : c ≠ '`') : closeCheck l t = false := by
  unfold closeCheck
  rw [closeTail_isPrefixOf_eq_false (l.drop t)
    (fun d hd => by rw [hc] at hd; exact (Option.some_inj.mp hd) ▸ hne)]
  rfl

theorem closeCheck_eq_false_of_nb (l : List Char) (t : Nat) (h : '`' ∉ l) :
    closeCheck l t = false := by
  cases hd : l.drop t with
  | nil =>
    unfold closeCheck
    rw [hd]
    rfl
  | cons c cs =>
    have hcmem : c ∈ l := List.drop_subset t l (hd ▸ List.mem_cons_self c cs)
    exact closeCheck_eq_false_head l t c (by rw [hd]; rfl) (fun he => h (he ▸ hcmem))

theorem closeGreedy_none_of (l : List Char) (k : Nat)
    (h : ∀ t, t ≤ k → closeCheck l t = false) : closeGreedy l k = none := by
  induction k with
  | zero => simp [closeGreedy, h 0 (Nat.le_refl 0)]
  | succ k ih =>
    simp only [closeGreedy, h (k + 1) (Nat.le_refl _), Bool.false_eq_true, if_false]
    exact ih (fun t ht => h t (Nat.le_succ_of_le ht))

theorem replaceOpenFenceGo_id (s : List Char) : ∀ (b : Bool), '`' ∉ s →
    replaceOpenFenceGo b s = s := by
  induction s with
  | nil => intro b _; rfl
  | cons c rest ih =>
    intro b h
    have hc : c ≠ '`' := fun he => h (by rw [he]; exact List.mem_cons_self _ _)
    have hbeq : ('`' == c) = false := beq_eq_false_iff_ne.mpr (fun he => hc he.symm)
    have hp : openFence.isPrefixOf (c :: rest) = false := by
      simp [openFence, List.isPrefixOf, hbeq]
    simp only [replaceOpenFenceGo, hp, Bool.and_false, Bool.false_eq_true, if_false]
    rw [ih (c == '\n') (fun hm => h (List.mem_cons_of_mem c hm))]

theorem replaceCloseFence_id (s : List Char) (h : '`' ∉ s) : replaceCloseFence s = s := by
  induction s with
  | nil => rfl
  | cons c rest ih =>
    have hnone : closeMatchLen (c :: rest) = none := by
      unfold closeMatchLen
      exact closeGreedy_none_of _ _ (fun t _ => closeCheck_eq_false_of_nb (c :: rest) t h)
    show replaceCloseFence (c :: rest) = c :: rest
    rw [replaceCloseFence, hnone]
    rw [ih (fun hm => h (List.mem_cons_of_mem c hm))]

theorem extractJsonFromMarkdown_id (s : List Char) (h : '`' ∉ s) :
    extractJsonFromMarkdown s = s := by
  by_cases hs : s = []
  · rw [hs]; rfl
  · unfold extractJsonFromMarkdown replaceOpenFence
    rw [if_neg hs, replaceOpenFenceGo_id s true h, replaceCloseFence_id s h]

theorem takeWhile_length_lt : ∀ (V X : List Char), V ≠ [] →
    (∀ c, V.getLast? = some c → isJsWs c = false) →
    ((V ++ X).takeWhile isJsWs).length < V.length := by
  intro V
  induction V with
  | nil => intro X hne _; exact absurd rfl hne
  | cons v V2 ih =>
    intro X _ hlast
    by_cases hne2 : V2 = []
    · subst hne2
      have hv : isJsWs v = false := hlast v (List.getLast?_singleton v)
      simp [List.takeWhile_cons, hv]
    · have hlast2 : ∀ c, V2.getLast? = some c → isJsWs c = false := by
        intro c hc
        apply hlast c
        obtain ⟨w, W, hW⟩ := List.exists_cons_of_ne_nil hne2
        rw [hW, List.getLast?_cons_cons, ← hW]
        exact hc
      rw [List.cons_append, List.takeWhile_cons]
      by_cases hv : isJsWs v = true
      · rw [if_pos hv]
        simp only [List.length_cons]
        exact Nat.succ_lt_succ (ih X hne2 hlast2)
      · rw [if_neg hv]
        simp

theorem closeMatchLen_append_none (V X : List Char) (hne : V ≠ []) (hnb : '`' ∉ V)
    (hlast : ∀ c, V.getLast? = some c → isJsWs c = false) :
    closeMatchLen (V ++ X) = none := by
  unfold closeMatchLen
  apply closeGreedy_none_of
  intro t ht
  have htlt : t < V.length := Nat.lt_of_le_of_lt ht (takeWhile_length_lt V X hne hlast)
  have hdropne : V.drop t ≠ [] := by
    apply List.ne_nil_of_length_pos
    rw [List.length_drop]
    omega
  obtain ⟨c, cs, hcs⟩ := List.exists_cons_of_ne_nil hdropne
  have hcmem : c ∈ V := List.drop_subset t V (hcs ▸ List.mem_cons_self c cs)
  have hd : ((V ++ X).drop t).head? = some c := by
    rw [List.drop_append_eq_append_drop, Nat.sub_eq_zero_of_le (Nat.le_of_lt htlt)]
    rw [hcs]
    rfl
  exact closeCheck_eq_false_head (V ++ X) t c hd (fun he => hnb (he ▸ hcmem))

theorem replaceOpenFence_fenceWrap (u : Char) (V : List Char) (hu : isJsWs u = false) :
    replaceOpenFence (fenceWrap (u :: V)) = (u :: V) ++ '\n' :: closeTail := by
  have h1 : replaceOpenFence (fenceWrap (u :: V))
      = ('\n' :: ((u :: V) ++ '\n' :: closeTail)).dropWhile isJsWs := rfl
  rw [h1, List.dropWhile_cons, if_pos (by rfl), List.cons_append, List.dropWhile_cons,
    if_neg (by rw [hu]; exact Bool.false_ne_true)]

theorem replaceCloseFence_strip : ∀ (V : List Char), '`' ∉ V →
    (∀ c, V.getLast? = some c → isJsWs c = false) →
    replaceCloseFence (V ++ '\n' :: closeTail) = V := by
  intro V
  induction V with
  | nil => intro _ _; rfl
  | cons v V2 ih =>
    intro hnb hlast
    have hnone : closeMatchLen ((v :: V2) ++ '\n' :: closeTail) = none :=
      closeMatchLen_append_none (v :: V2) ('\n' :: closeTail) (List.cons_ne_nil v V2) hnb hlast
    rw [List.cons_append] at hnone ⊢
    rw [replaceCloseFence, hnone]
    rcases hV2 : V2 with _ | ⟨w, W⟩
    · rfl
    · rw [← hV2]
      rw [ih (fun hm => hnb (List.mem_cons_of_mem v hm))
        (fun c hc => hlast c (by rw [hV2] at hc ⊢; rw [List.getLast?_cons_cons]; exact hc))]

/-- C4 counterexample. The fenced review text does not parse to the same
object as the unfenced one in every provider variant: under the Gemini
variant (and the Claude variant) the fenced form fails to parse while the
unfenced form succeeds, because they JSON-parse the provider text without
stripping the fence. -/
theorem review_fence_stripping_counterexample :
    parseSucceeded (geminiReviewParse fencedReviewText) = false
    ∧ parseSucceeded (geminiReviewParse unfencedReviewText) = true
    ∧ parseSucceeded (claudeReviewParse fencedReviewText) = false
    ∧ geminiReviewParse fencedReviewText ≠ geminiReviewParse unfencedReviewText := by
  refine ⟨rfl, rfl, rfl, ?_⟩
  intro h
  have hb := congrArg parseSucceeded h
  rw [show parseSucceeded (geminiReviewParse fencedReviewText) = false from rfl,
    show parseSucceeded (geminiReviewParse unfencedReviewText) = true from rfl] at hb
  exact Bool.noConfusion hb

/-- C4 amended. Only the ChatGPT variant strips a markdown code fence
before JSON-parsing: `extractJsonFromMarkdown` is the identity on
fence-free texts and removes exactly the leading/trailing fence from a
fenced body (whose edges are non-whitespace and which contains no
backtick), so ChatGPT parses fenced and unfenced review texts to the same
object; the Gemini and Claude variants JSON-parse the provider text
unchanged and fail on the concrete fenced review text. -/
theorem review_fence_stripping_amended :
    (∀ s : List Char, '`' ∉ s → extractJsonFromMarkdown s = s)
    ∧ (∀ U : List Char, '`' ∉ U →
        (∀ c, U.head? = some c → isJsWs c = false) →
        (∀ c, U.getLast? = some c → isJsWs c = false) →
        extractJsonFromMarkdown (fenceWrap U) = U
        ∧ chatgptReviewParse (fenceWrap U) = chatgptReviewParse U)
    ∧ geminiReviewParse fencedReviewText
        = .error "Failed to parse response as JSON: Unexpected token in JSON"
    ∧ claudeReviewParse fencedReviewText
        = .error "Failed to parse response as JSON: Unexpected token in JSON"
    ∧ parseSucceeded (chatgptReviewParse fencedReviewText) = true := by
  have hext : ∀ U : List Char, '`' ∉ U →
      (∀ c, U.head? = some c → isJsWs c = false) →
      (∀ c, U.getLast? = some c → isJsWs c = false) →
      extractJsonFromMarkdown (fenceWrap U) = U := by
    intro U hnb hhead hlast
    rcases U with _ | ⟨u, V⟩
    · rfl
    · have hu : isJsWs u = false := hhead u rfl
      have hwne : fenceWrap (u :: V) ≠ [] := by simp [fenceWrap, openFence]
      unfold extractJsonFromMarkdown
      rw [if_neg hwne, replaceOpenFence_fenceWrap u V hu,
        replaceCloseFence_strip (u :: V) hnb hlast]
  refine ⟨extractJsonFromMarkdown_id, ?_, rfl, rfl, rfl⟩
  intro U hnb hhead hlast
  refine ⟨hext U hnb hhead hlast, ?_⟩
  unfold chatgptReviewParse
  rw [hext U hnb hhead hlast, extractJsonFromMarkdown_id U hnb]

/-- Witness for C4 amended, at the concrete review body: stripping the
fenced form recovers the body, and ChatGPT parses both forms alike. -/
theorem review_fence_stripping_amended_witness :
    extractJsonFromMarkdown (fenceWrap unfencedReviewText) = unfencedReviewText
    ∧ chatgptReviewParse (fenceWrap unfencedReviewText)
        = chatgptReviewParse unfencedReviewText :=
  review_fence_stripping_amended.2.1 unfencedReviewText (by decide)
    (fun c hc => by cases hc; rfl) (fun c hc => by cases hc; rfl)

end PRofessor
